import Mathlib

/-!
Verification of the SPICE netlist generator (`src/simulation/spice.py`).

This file gives a shallow embedding of the netlist data model and
operations of the source: the `NetList` scope (device counters, device
lines, registered sub-circuits), the `SubCircuit` entity, the
construction API (`add_subcircuit`, `rlc_instance`,
`subcircuit_instance`), the file writer (`write_in_fpath` and its three
passes) and the line-oriented parser (`load_from_file`).

Conventions of the embedding:
* Python floats are modelled as exact rationals; the `%.6e` format is
  implemented on rationals with round-half-to-even, which agrees with
  CPython on every value whose decimal literal is exactly representable.
* Each mutating method is a function from the scope state to
  `Option PyErr × State`: the first component is the raised exception
  (`none` on success) and the second is the state of the object after
  the call, mutations applied before the raise included.
* Files are modelled as the list of strings passed to `write` calls
  (serialization) and as the list of their lines (parsing).
-/

/-- The `_END_OF_LINE` constant of the source. -/
def eol : String := "\n"

/-- The `_ZFILL_WIDTH` constant of the source. -/
def zfillWidth : Nat := 5

/-- Python `str.zfill`: left-pad with zeros to at least `w` characters. -/
def zfill (w : Nat) (s : String) : String :=
  if s.length < w then String.mk (List.replicate (w - s.length) '0') ++ s else s

/-- Python `' '.join(nodes)`. -/
def joinSpace (nodes : List String) : String :=
  String.intercalate (" ") nodes

/-- Splitting a character list on runs of whitespace; `acc` is the
current token, reversed. -/
def splitWSAux : List Char → List Char → List (List Char)
  | [], acc => if acc = [] then [] else [acc.reverse]
  | c :: rest, acc =>
      if c.isWhitespace then
        if acc = [] then splitWSAux rest [] else acc.reverse :: splitWSAux rest []
      else splitWSAux rest (c :: acc)

/-- Python `str.split()` with no argument: split on runs of whitespace,
discarding empty pieces. -/
def pySplit (s : String) : List String :=
  (splitWSAux s.data []).map String.mk

/-- Numeric value of a list of decimal digit characters. -/
def digitsVal (ds : List Char) : Nat :=
  ds.foldl (fun a c => a * 10 + (c.toNat - 48)) 0

/-- Number of decimal digits of `n` (1 for 0). -/
def digits10 (n : Nat) : Nat :=
  (Nat.toDigits 10 n).length

/-- Decide `10 ^ e ≤ a / b` for naturals `a`, `b > 0` and an integer
exponent `e`, by clearing denominators. -/
def pow10le (e : Int) (a b : Nat) : Bool :=
  if 0 ≤ e then decide (10 ^ e.toNat * b ≤ a) else decide (b ≤ a * 10 ^ (-e).toNat)

/-- The C/Python `%.6e` floating-point format on exact rationals:
sign, one leading digit, six fractional digits, `e`, a signed two-digit
(minimum) exponent.  Rounding is round-half-to-even, as in IEEE-754
binary arithmetic printed by CPython. -/
def formatE6 (q : ℚ) : String :=
  if q = 0 then ("0.000000e+00") else
  let sign := if q < 0 then ("-") else ("")
  let a := q.num.natAbs
  let b := q.den
  let e0 : Int := (digits10 a : Int) - (digits10 b : Int)
  let e : Int := if pow10le e0 a b then e0 else e0 - 1
  let scale : Int := 6 - e
  let nd : Nat × Nat :=
    if 0 ≤ scale then (a * 10 ^ scale.toNat, b) else (a, b * 10 ^ (-scale).toNat)
  let m0 := nd.1 / nd.2
  let r := nd.1 % nd.2
  let m := if nd.2 < 2 * r then m0 + 1
           else if 2 * r < nd.2 then m0
           else if m0 % 2 = 0 then m0 else m0 + 1
  let de : Nat × Int := if m = 10 ^ 7 then (10 ^ 6, e + 1) else (m, e)
  let s := toString de.1
  let mant := s.take 1 ++ "." ++ s.drop 1
  let expStr := (if de.2 < 0 then ("-") else ("+")) ++ zfill 2 (toString de.2.natAbs)
  sign ++ mant ++ "e" ++ expStr

example : formatE6 1000 = "1.000000e+03" := by decide
example : formatE6 1 = "1.000000e+00" := by decide
example : formatE6 (mkRat 1 2) = "5.000000e-01" := by decide
example : formatE6 (mkRat 1 3) = "3.333333e-01" := by decide
example : formatE6 (mkRat (-25) 10) = "-2.500000e+00" := by decide
example : formatE6 0 = "0.000000e+00" := by decide
example : formatE6 (mkRat 19999999 2) = "1.000000e+07" := by decide

/-- Parse an optional exponent-part sign followed by mandatory digits,
returning the signed exponent; `none` on malformed input. -/
def parseExp (cs : List Char) : Option Int :=
  let sr : Bool × List Char :=
    match cs with
    | '-' :: r => (true, r)
    | '+' :: r => (false, r)
    | _ => (false, cs)
  let ds := sr.2.takeWhile Char.isDigit
  if ds.isEmpty ∨ ¬ (sr.2.dropWhile Char.isDigit).isEmpty then none
  else some (if sr.1 then -(digitsVal ds : Int) else (digitsVal ds : Int))

/-- Python `float(s)` on the decimal-literal subset
`[sign] digits [. digits] [(e|E) [sign] digits]` (the tokens it is
applied to carry no surrounding whitespace); `none` models the
`ValueError` raised on anything else.  The value is assembled with
integer arithmetic and a single `mkRat`, and is exact. -/
def pyFloat (s : String) : Option ℚ :=
  let cs := s.data
  let sd : Bool × List Char :=
    match cs with
    | '-' :: r => (true, r)
    | '+' :: r => (false, r)
    | _ => (false, cs)
  let intDs := sd.2.takeWhile Char.isDigit
  let cs1 := sd.2.dropWhile Char.isDigit
  if intDs.isEmpty then none else
  let fr : Nat × Nat × List Char :=
    match cs1 with
    | '.' :: r =>
        (digitsVal (r.takeWhile Char.isDigit), (r.takeWhile Char.isDigit).length,
          r.dropWhile Char.isDigit)
    | _ => (0, 0, cs1)
  let expn : Option Int :=
    match fr.2.2 with
    | [] => some 0
    | 'e' :: r => parseExp r
    | 'E' :: r => parseExp r
    | _ => none
  match expn with
  | none => none
  | some ex =>
      let numAbs : Nat := digitsVal intDs * 10 ^ fr.2.1 + fr.1
      let e : Int := ex - (fr.2.1 : Int)
      let n : Int := (if sd.1 then -(numAbs : Int) else (numAbs : Int))
      if 0 ≤ e then some (mkRat (n * 10 ^ e.toNat) 1)
      else some (mkRat n (10 ^ (-e).toNat))

example : pyFloat ("1.0") = some 1 := by decide
example : pyFloat ("1000.0") = some 1000 := by decide
example : pyFloat ("2.5e3") = some 2500 := by decide
example : pyFloat ("-0.25") = some (mkRat (-1) 4) := by decide
example : pyFloat ("abc") = none := by decide

/-! ## Insertion-ordered dictionary (Python `dict` with string keys) -/

/-- Lookup in an insertion-ordered association list (`d[k]` read). -/
def dictFind (d : List (String × Nat)) (k : String) : Option Nat :=
  match d with
  | [] => none
  | (k', v) :: rest => if k' = k then some v else dictFind rest k

/-- Python `d[k] = v`: update the existing entry in place, else append. -/
def dictSet (d : List (String × Nat)) (k : String) (v : Nat) : List (String × Nat) :=
  match d with
  | [] => [(k, v)]
  | (k', v') :: rest => if k' = k then (k, v) :: rest else (k', v') :: dictSet rest k v

/-- Python `sum(d.values())`. -/
def dictSum (d : List (String × Nat)) : Nat :=
  match d with
  | [] => 0
  | (_, v) :: rest => v + dictSum rest

/-! ## Data model: exceptions, `SubCircuit` and `NetList` -/

/-- The Python exceptions the source can raise, with their messages. -/
inductive PyErr : Type where
  | typeError (msg : String)
  | valueError (msg : String)
  | attributeError (msg : String)
  | keyError (key : String)
  | indexError (msg : String)
deriving DecidableEq, Repr

/-- The `SubCircuit` (class of the source): identity fields plus its own
netlist scope (nested sub-circuits, rendered device lines, per-label
counter dictionary, total counter).  `subcircuit_filepath` is `none`
until `load_from_file` sets it (the attribute does not exist before). -/
inductive SubCircuit : Type where
  | mk (name : String) (ext_nodes : List String) (suffix : String)
       (comment : String) (subcircuit_filepath : Option String)
       (subcircuits : List SubCircuit) (devices : List String)
       (count_device_dict : List (String × Nat)) (count_device_total : Nat)

def SubCircuit.name : SubCircuit → String
  | .mk n _ _ _ _ _ _ _ _ => n

def SubCircuit.ext_nodes : SubCircuit → List String
  | .mk _ e _ _ _ _ _ _ _ => e

def SubCircuit.suffix : SubCircuit → String
  | .mk _ _ s _ _ _ _ _ _ => s

def SubCircuit.comment : SubCircuit → String
  | .mk _ _ _ c _ _ _ _ _ => c

def SubCircuit.subcircuit_filepath : SubCircuit → Option String
  | .mk _ _ _ _ p _ _ _ _ => p

def SubCircuit.subcircuits : SubCircuit → List SubCircuit
  | .mk _ _ _ _ _ ss _ _ _ => ss

def SubCircuit.devices : SubCircuit → List String
  | .mk _ _ _ _ _ _ ds _ _ => ds

def SubCircuit.count_device_dict : SubCircuit → List (String × Nat)
  | .mk _ _ _ _ _ _ _ d _ => d

def SubCircuit.count_device_total : SubCircuit → Nat
  | .mk _ _ _ _ _ _ _ _ t => t

/-- A `NetList` scope: the mutable state shared by `NetList` and (via
inheritance) by every `SubCircuit`.  The root `filepath` attribute is
external to the model (the writer below takes the destination content
explicitly). -/
structure NetList : Type where
  subcircuits : List SubCircuit
  devices : List String
  count_device_dict : List (String × Nat)
  count_device_total : Nat

/-- The `NetList.__init__`: counters `R`, `C`, `L` at 0 (that literal order),
zero total, no devices, no sub-circuits. -/
def netListInit : NetList :=
  { subcircuits := [], devices := [],
    count_device_dict := [("R", 0), ("C", 0), ("L", 0)],
    count_device_total := 0 }

/-- The scope of a `SubCircuit` viewed as a `NetList` (inheritance). -/
def SubCircuit.scope : SubCircuit → NetList
  | .mk _ _ _ _ _ ss ds d t => ⟨ss, ds, d, t⟩

/-- Write back the scope of a `SubCircuit` after a mutating call. -/
def SubCircuit.withScope : SubCircuit → NetList → SubCircuit
  | .mk n e s c p _ _ _ _, nl => .mk n e s c p nl.subcircuits nl.devices
      nl.count_device_dict nl.count_device_total

/-- The `SubCircuit.__init__(name, external_nodes, suffix, comment)`. -/
def subCircuitInit (name : String) (external_nodes : List String)
    (suffix : String) (comment : String) : SubCircuit :=
  .mk name external_nodes suffix comment none [] []
    [("R", 0), ("C", 0), ("L", 0)] 0

/-- A Python value passed where the source expects a `SubCircuit`: the
parser hands `subcircuit_instance` a plain string (`split_line[-1]`), so
the argument is either a genuine `SubCircuit` or a `str`. -/
inductive PyObj : Type where
  | sub (sc : SubCircuit)
  | str (s : String)

/-! ## Construction API (`NetList` methods) -/

/-- The `NetList.get_subcircuit_names`. -/
def get_subcircuit_names (st : NetList) : List String :=
  st.subcircuits.map SubCircuit.name

/-- The `NetList.add_subcircuit`: on a `SubCircuit` argument, append it and
set the counter of its name to 0 (a plain `dict` assignment — there is no
duplicate check in the source); on any other argument raise `TypeError`. -/
def add_subcircuit (st : NetList) (obj : PyObj) : Option PyErr × NetList :=
  match obj with
  | .sub sc =>
      (none, { st with subcircuits := st.subcircuits ++ [sc],
                       count_device_dict := dictSet st.count_device_dict sc.name 0 })
  | .str _ => (some (.typeError ("subcircuit must be a SubCircuit")), st)

/-- The `NetList.rlc_instance(device, nodes, value)`: for `device` in
`R`/`L`/`C` increment the total, increment the per-device counter,
render `"<device><count> <nodes> <%.6e value>\n"` and append it;
otherwise raise `ValueError` (message quotes elided).  The total is
incremented before the dictionary access, as in the source. -/
def rlc_instance (st : NetList) (device : String) (nodes : List String)
    (value : ℚ) : Option PyErr × NetList :=
  if device = "R" ∨ device = "L" ∨ device = "C" then
    let st1 := { st with count_device_total := st.count_device_total + 1 }
    match dictFind st1.count_device_dict device with
    | none => (some (.keyError device), st1)
    | some c =>
        let new_line := device ++ toString (c + 1) ++ " " ++ joinSpace nodes
          ++ " " ++ formatE6 value ++ eol
        (none, { st1 with
                  count_device_dict := dictSet st1.count_device_dict device (c + 1),
                  devices := st1.devices ++ [new_line] })
  else (some (.valueError ("device must be in [R, L, C]")), st)

/-- The `NetList.subcircuit_instance(subcircuit, nodes)`: the source first
evaluates `subcircuit.name`, which raises `AttributeError` when the
argument is a `str`; then, if the name is registered, increments the
total and the per-name counter, renders
`"X_<suffix>_<count zero-padded to 5> <nodes> <name>\n"` and appends it;
otherwise raises the `ValueError` whose message is the name followed
by `does not exist as a subcircuit`. -/
def subcircuit_instance (st : NetList) (obj : PyObj) (nodes : List String) :
    Option PyErr × NetList :=
  match obj with
  | .str _ => (some (.attributeError ("str object has no attribute name")), st)
  | .sub sc =>
      if sc.name ∈ get_subcircuit_names st then
        let st1 := { st with count_device_total := st.count_device_total + 1 }
        match dictFind st1.count_device_dict sc.name with
        | none => (some (.keyError sc.name), st1)
        | some c =>
            let num := zfill zfillWidth (toString (c + 1))
            let new_line := "X_" ++ sc.suffix ++ "_" ++ num ++ " "
              ++ joinSpace nodes ++ " " ++ sc.name ++ eol
            (none, { st1 with
                      count_device_dict := dictSet st1.count_device_dict sc.name (c + 1),
                      devices := st1.devices ++ [new_line] })
      else (some (.valueError (sc.name ++ " does not exist as a subcircuit")), st)

/-! ## Sequences of construction calls -/

/-- One construction-API call. -/
inductive Op : Type where
  | addSub (obj : PyObj)
  | rlc (device : String) (nodes : List String) (value : ℚ)
  | subInst (obj : PyObj) (nodes : List String)

/-- Apply one construction call to a scope. -/
def applyOp (st : NetList) : Op → Option PyErr × NetList
  | .addSub obj => add_subcircuit st obj
  | .rlc d ns v => rlc_instance st d ns v
  | .subInst obj ns => subcircuit_instance st obj ns

/-- Run a sequence of construction calls, stopping at the first raised
exception (which propagates, with the object in its state at the
raise). -/
def runOps (st : NetList) : List Op → Option PyErr × NetList
  | [] => (none, st)
  | op :: rest =>
      match applyOp st op with
      | (none, st1) => runOps st1 rest
      | (some e, st1) => (some e, st1)

/-- The `R`/`L`/`C` calls of a mix, as operations. -/
def rlcOps : List (String × List String × ℚ) → List Op
  | [] => []
  | c :: rest => Op.rlc c.1 c.2.1 c.2.2 :: rlcOps rest

/-- A list of `n` successive `subcircuit_instance` calls for one
sub-circuit. -/
def subOps (sc : SubCircuit) : List (List String) → List Op
  | [] => []
  | ns :: rest => Op.subInst (.sub sc) ns :: subOps sc rest

/-- Names registered by the `add_subcircuit` calls of a sequence. -/
def addSubNames : List Op → List String
  | [] => []
  | .addSub (.sub sc) :: rest => sc.name :: addSubNames rest
  | _ :: rest => addSubNames rest

/-- The instance lines `subcircuit_instance` is expected to render for
successive calls with node lists `nss`, the first call getting index
`i`. -/
def expectedSubLines (sc : SubCircuit) (i : Nat) : List (List String) → List String
  | [] => []
  | ns :: rest =>
      ("X_" ++ sc.suffix ++ "_" ++ zfill zfillWidth (toString i) ++ " "
        ++ joinSpace ns ++ " " ++ sc.name ++ eol) :: expectedSubLines sc (i + 1) rest

/-! ## Serializer

A destination file is modelled as the list of strings handed to
`f.write` calls, in order; the emitted text is their concatenation.
Each pass function takes the content already in the file (append
mode); `_write_header` opens the file in write mode and so discards it. -/

/-- The `NetList._write_comment`: write `"*** <comment>\n"`, or nothing when
the comment is empty. -/
def write_comment (acc : List String) (comment : String) : List String :=
  if comment.length ≠ 0 then acc ++ ["*** " ++ comment ++ eol] else acc

/-- The `NetList._write_header`: open the destination in write (truncate) mode
(truncating whatever `prev` content it had) and write the fixed comment
block; the date and time strings come from the environment and are
parameters of the model. -/
def write_header (date time : String) (_prev : List String) : List String :=
  write_comment (write_comment (write_comment (write_comment (write_comment []
    ("Generated for: SPICE"))
    ("By: simulation.spice python package"))
    ("On: " ++ date))
    ("At: " ++ time))
    (" ")

/-- The `SubCircuit._update_start_line`. -/
def start_line (name : String) (ext_nodes : List String) : String :=
  ".SUBCIRCUIT " ++ name ++ " " ++ joinSpace ext_nodes ++ eol

/-- The `SubCircuit._update_end_line`. -/
def end_line (name : String) : String :=
  ".ENDS " ++ name ++ eol

/-- The comments `SubCircuit._write_subcircuit` writes before each
nested sub-circuit: a blank comment, `Inner subcircuit`, and — when the
nested one carries a `subcircuit_filepath` (the `hasattr` check) — a
comment naming its source file. -/
def innerPrelude (acc : List String) : Option String → List String
  | some p => write_comment (write_comment (write_comment acc (" "))
      ("Inner subcircuit")) ("subcircuit loaded from : " ++ p)
  | none => write_comment (write_comment acc (" ")) ("Inner subcircuit")

mutual

/-- The `SubCircuit._write_subcircuit`: optional descriptive comment, the
(recomputed) start line, the concatenation of the device lines of the scope
as one write, the nested sub-circuits each preceded by the blank and
`Inner subcircuit` comments (and a source comment when the nested one
was loaded from a file), and the end line. -/
def write_subcircuit (acc : List String) (sc : SubCircuit) : List String :=
  match sc with
  | .mk name ext _suffix comment _src subs devs _dict _tot =>
      (writeInnerSubs
        ((write_comment acc comment) ++ [start_line name ext] ++ [String.join devs])
        subs) ++ [end_line name]

/-- The `for subcircuit in self.subcircuits` loop of
`SubCircuit._write_subcircuit`. -/
def writeInnerSubs (acc : List String) : List SubCircuit → List String
  | [] => acc
  | s :: rest =>
      writeInnerSubs
        (write_subcircuit (innerPrelude acc s.subcircuit_filepath) s)
        rest

end

/-- The `for subcircuit in self.subcircuits` loop of
`NetList._write_subcircuits` (no inner-subcircuit comments at the top
level). -/
def writeTopSubs (acc : List String) : List SubCircuit → List String
  | [] => acc
  | s :: rest => writeTopSubs (write_subcircuit acc s) rest

/-- The `NetList._write_subcircuits`: append the `subcircuits` comment, then
each registered sub-circuit in registration order. -/
def write_subcircuits (st : NetList) (prev : List String) : List String :=
  writeTopSubs (write_comment prev ("subcircuits")) st.subcircuits

/-- The `NetList._write_instances`: append the `Instances` comment, then
every top-level device line in creation order. -/
def write_instances (st : NetList) (prev : List String) : List String :=
  (write_comment prev ("Instances")) ++ st.devices

/-- The `NetList.write_in_fpath`: the header pass (truncating), then the
sub-circuits pass, then the instances pass, each reopening the same
destination. -/
def write_in_fpath (st : NetList) (date time : String) (prev : List String) :
    List String :=
  write_instances st (write_subcircuits st (write_header date time prev))

/-! ## Parser (`SubCircuit.load_from_file`)

The input file is the list of its lines (contents without the trailing
newline).  `readline` on a real line always returns a string ending in a
newline, which is truthy even for a blank line; only end-of-file yields the falsy
empty string.  The loop body therefore runs once more after the last
line has been processed, and tokenizes the empty end-of-file read. -/

/-- Assignments performed by `load_from_file` before reading:
`subcircuit_filepath`, `ext_nodes`, `name`, `suffix`. -/
def SubCircuit.setLoadAttrs : SubCircuit → String → List String → String →
    String → SubCircuit
  | .mk _ _ _ c _ ss ds d t, path, ext, nm, sfx =>
      .mk nm ext sfx c (some path) ss ds d t

/-- The `self.name = split_line[1]` assignment. -/
def SubCircuit.setName : SubCircuit → String → SubCircuit
  | .mk _ e s c p ss ds d t, nm => .mk nm e s c p ss ds d t

/-- The `self.ext_nodes = split_line[2:]` assignment. -/
def SubCircuit.setExtNodes : SubCircuit → List String → SubCircuit
  | .mk n _ s c p ss ds d t, e => .mk n e s c p ss ds d t

/-- The `while line:` loop of `load_from_file`, entered with the
previously read line truthy; `rest` is what remains of the file.  The
body reads the next line — the empty end-of-file string when `rest` is
exhausted — splits it, and indexes token 0, so a read with no tokens
raises `IndexError`.  `R`/`L`/`C` lines go through `rlc_instance` (with
`float` applied to the last token), `X` lines hand the last token — a
`str` — to `subcircuit_instance`, a `.ENDS` first token breaks, other
`.`-lines and unidentified lines are only reported. -/
def loadLoop (sc : SubCircuit) : List String → Option PyErr × SubCircuit
  | [] => (some (.indexError ("list index out of range")), sc)
  | l :: rest =>
      match pySplit l with
      | [] => (some (.indexError ("list index out of range")), sc)
      | t0 :: ts =>
          let c := t0.data.headD ' '
          if c = 'R' ∨ c = 'L' ∨ c = 'C' then
            match pyFloat ((t0 :: ts).getLastD ("")) with
            | none => (some (.valueError ("could not convert string to float: "
                ++ (t0 :: ts).getLastD (""))), sc)
            | some v =>
                match rlc_instance sc.scope (String.singleton c)
                    ((t0 :: ts).drop 1).dropLast v with
                | (none, nl) => loadLoop (sc.withScope nl) rest
                | (some e, nl) => (some e, sc.withScope nl)
          else if c = 'X' then
            match subcircuit_instance sc.scope (.str ((t0 :: ts).getLastD ("")))
                ((t0 :: ts).drop 1).dropLast with
            | (none, nl) => loadLoop (sc.withScope nl) rest
            | (some e, nl) => (some e, sc.withScope nl)
          else if c = '.' then
            if t0 = ".ENDS" then (none, sc) else loadLoop sc rest
          else loadLoop sc rest

/-- The `SubCircuit.load_from_file(path, external_nodes, name, suffix)`:
set the four attributes, read and split the first line (deriving the
name from token 1 — `IndexError` when absent — if `name` was not
supplied, and the external nodes from tokens 2 onward if
`external_nodes` was empty), then run the classification loop when the
first read was truthy. -/
def load_from_file (sc : SubCircuit) (path : String) (fileLines : List String)
    (external_nodes : List String) (name : String) (suffix : String) :
    Option PyErr × SubCircuit :=
  let sc0 := sc.setLoadAttrs path external_nodes name suffix
  let firstRead : String × List String :=
    match fileLines with
    | [] => ("", [])
    | l :: rest => (l ++ eol, rest)
  let split0 := pySplit firstRead.1
  let named : Option SubCircuit :=
    if name = "" then
      match split0.get? 1 with
      | none => none
      | some nm => some (sc0.setName nm)
    else some sc0
  match named with
  | none => (some (.indexError ("list index out of range")), sc0)
  | some sc1 =>
      let sc2 := if sc1.ext_nodes = [] then sc1.setExtNodes (split0.drop 2) else sc1
      if firstRead.1 = "" then (none, sc2) else loadLoop sc2 firstRead.2

/-! ## Dictionary lemmas -/

theorem dictFind_dictSet_self (d : List (String × Nat)) (k : String) (v : Nat) :
    dictFind (dictSet d k v) k = some v := by
  induction d with
  | nil => simp [dictSet, dictFind]
  | cons p rest ih =>
      by_cases h : p.1 = k
      · simp [dictSet, dictFind, h]
      · simp [dictSet, dictFind, h, ih]

theorem dictFind_dictSet_ne (d : List (String × Nat)) (k k' : String) (v : Nat)
    (h : k' ≠ k) : dictFind (dictSet d k v) k' = dictFind d k' := by
  have hk : ¬ (k = k') := fun e => h e.symm
  induction d with
  | nil => simp [dictSet, dictFind, hk]
  | cons p rest ih =>
      obtain ⟨k0, v0⟩ := p
      by_cases hp : k0 = k
      · subst hp
        simp [dictSet, dictFind, hk]
      · simp [dictSet, dictFind, hp, ih]

theorem dictSet_fresh (d : List (String × Nat)) (k : String) (v : Nat)
    (h : dictFind d k = none) : dictSet d k v = d ++ [(k, v)] := by
  induction d with
  | nil => simp [dictSet]
  | cons p rest ih =>
      by_cases hp : p.1 = k
      · simp [dictFind, hp] at h
      · simp only [dictFind, hp, if_neg] at h
        simp [dictSet, hp, ih h]

theorem dictSum_append (d : List (String × Nat)) (k : String) (v : Nat) :
    dictSum (d ++ [(k, v)]) = dictSum d + v := by
  induction d with
  | nil => simp [dictSum]
  | cons p rest ih => simp [dictSum, ih]; omega

theorem dictSum_dictSet_succ (d : List (String × Nat)) (k : String) (c : Nat)
    (h : dictFind d k = some c) :
    dictSum (dictSet d k (c + 1)) = dictSum d + 1 := by
  induction d with
  | nil => simp [dictFind] at h
  | cons p rest ih =>
      obtain ⟨k0, v0⟩ := p
      by_cases hp : k0 = k
      · subst hp
        simp [dictFind] at h
        simp [dictSet, dictSum, h]
        omega
      · simp only [dictFind, hp, if_false, if_neg] at h
        simp [dictSet, dictSum, hp, ih h]
        omega

theorem dictFind_dictSet_none (d : List (String × Nat)) (k k' : String) (v : Nat) :
    dictFind (dictSet d k v) k' = none ↔ dictFind d k' = none ∧ k' ≠ k := by
  constructor
  · intro h
    by_cases hk : k' = k
    · subst hk; rw [dictFind_dictSet_self] at h; simp at h
    · rw [dictFind_dictSet_ne d k k' v hk] at h; exact ⟨h, hk⟩
  · intro ⟨h1, h2⟩
    rw [dictFind_dictSet_ne d k k' v h2]; exact h1


/-! ## Shared concrete objects -/

/-- A sub-circuit `OPAMP` with suffix `AMP`, as in the example of the spec. -/
def opamp : SubCircuit := subCircuitInit ("OPAMP") ["in", "out"] ("AMP") ("")

/-- An empty sub-circuit being built by the parser. -/
def blankSub : SubCircuit := subCircuitInit ("") [] ("") ("")

/-! ## Claims -/

/-- C5: on a fresh `NetList`, `rlc_instance("R", ["n1","n2"], 1000.0)`
succeeds and appends exactly the newline-terminated device line
`R1 n1 n2 1.000000e+03`; the numeric field is rendered by the
`%.6e`-equivalent `formatE6`. -/
theorem c5_first_resistor_line :
    (rlc_instance netListInit ("R") ["n1", "n2"] 1000).1 = none ∧
    (rlc_instance netListInit ("R") ["n1", "n2"] 1000).2.devices
      = ["R1 n1 n2 1.000000e+03\n"] := by
  exact ⟨by decide, by decide⟩

/-- C2: instancing a `SubCircuit` whose name is not among the scope's
registered sub-circuit names raises the
`ValueError('<name> does not exist as a subcircuit')` (the spec's
`UnregisteredSubcircuit`) and returns the scope exactly as it was:
per-label counters, total count and devices list unchanged. -/
theorem c2_unregistered_instance_fails (st : NetList) (sc : SubCircuit)
    (nodes : List String) (h : sc.name ∉ get_subcircuit_names st) :
    subcircuit_instance st (.sub sc) nodes
      = (some (.valueError (sc.name ++ " does not exist as a subcircuit")), st) := by
  simp [subcircuit_instance, h]

/-- Witness for C2 at a concrete input: `OPAMP` is not registered in a
fresh scope, and the call fails leaving the scope untouched. -/
theorem c2_witness :
    subcircuit_instance netListInit (.sub opamp) ["n1", "n2"]
      = (some (.valueError ("OPAMP does not exist as a subcircuit")), netListInit) :=
  c2_unregistered_instance_fails netListInit opamp ["n1", "n2"] (by decide)

/-- C1 counterexample: registering `OPAMP`, instancing it once (counter
1), then registering the same name again: the second registration
raises nothing (the source has no duplicate check) and resets the
per-name counter to 0 instead of leaving it intact. -/
theorem c1_counterexample :
    dictFind (runOps netListInit
        [.addSub (.sub opamp), .subInst (.sub opamp) ["n1", "n2"]]).2.count_device_dict
      ("OPAMP") = some 1 ∧
    (runOps netListInit
        [.addSub (.sub opamp), .subInst (.sub opamp) ["n1", "n2"],
         .addSub (.sub opamp)]).1 = none ∧
    dictFind (runOps netListInit
        [.addSub (.sub opamp), .subInst (.sub opamp) ["n1", "n2"],
         .addSub (.sub opamp)]).2.count_device_dict ("OPAMP") = some 0 := by
  exact ⟨by decide, by decide, by decide⟩

/-- C1 amended: `add_subcircuit` performs no duplicate-name check.  For
every `SubCircuit` argument — already registered or not — it succeeds,
appends the sub-circuit and (re)sets the counter-registry entry of the name
to 0; in particular a fresh name is registered with count 0, and a
re-registration resets the existing counter to 0 while duplicating the
entry in `subcircuits`. -/
theorem c1_add_subcircuit_no_duplicate_check (st : NetList) (sc : SubCircuit) :
    add_subcircuit st (.sub sc)
      = (none, { st with subcircuits := st.subcircuits ++ [sc],
                         count_device_dict := dictSet st.count_device_dict sc.name 0 }) ∧
    dictFind (add_subcircuit st (.sub sc)).2.count_device_dict sc.name = some 0 := by
  exact ⟨rfl, by simp [add_subcircuit, dictFind_dictSet_self]⟩

/-- The scope after a successful `rlc_instance` call that found counter
value `cd` for its device. -/
def rlcNext (st : NetList) (d : String) (ns : List String) (v : ℚ) (cd : Nat) :
    NetList :=
  { st with
    count_device_total := st.count_device_total + 1,
    count_device_dict := dictSet st.count_device_dict d (cd + 1),
    devices := st.devices ++
      [d ++ toString (cd + 1) ++ " " ++ joinSpace ns ++ " " ++ formatE6 v ++ eol] }

/-- A valid `rlc_instance` call whose device counter is present
succeeds and steps to `rlcNext`. -/
theorem rlc_instance_valid_step (st : NetList) (d : String) (ns : List String)
    (v : ℚ) (cd : Nat) (hd : d = "R" ∨ d = "L" ∨ d = "C")
    (hfind : dictFind st.count_device_dict d = some cd) :
    rlc_instance st d ns v = (none, rlcNext st d ns v cd) := by
  simp only [rlc_instance, if_pos hd, rlcNext]
  rw [show ({ st with count_device_total := st.count_device_total + 1 } :
      NetList).count_device_dict = st.count_device_dict from rfl, hfind]

/-- Running a sequence steps through a successful first call. -/
theorem runOps_cons_ok (st st1 : NetList) (op : Op) (rest : List Op)
    (h : applyOp st op = (none, st1)) :
    runOps st (op :: rest) = runOps st1 rest := by
  simp [runOps, h]

/-- C3 induction kernel: from any scope whose `R`/`L`/`C` counters read
`r`/`l`/`c`, a mix of valid RLC calls succeeds, adds its length to the
total and adds the per-type call counts to the per-type counters. -/
theorem runOps_rlc_counts (calls : List (String × List String × ℚ)) :
    ∀ (st : NetList) (r l c : Nat),
    dictFind st.count_device_dict ("R") = some r →
    dictFind st.count_device_dict ("L") = some l →
    dictFind st.count_device_dict ("C") = some c →
    (∀ x ∈ calls, x.1 = "R" ∨ x.1 = "L" ∨ x.1 = "C") →
    (runOps st (rlcOps calls)).1 = none ∧
    (runOps st (rlcOps calls)).2.count_device_total
      = st.count_device_total + calls.length ∧
    dictFind (runOps st (rlcOps calls)).2.count_device_dict ("R")
      = some (r + List.countP (fun x => x.1 == "R") calls) ∧
    dictFind (runOps st (rlcOps calls)).2.count_device_dict ("L")
      = some (l + List.countP (fun x => x.1 == "L") calls) ∧
    dictFind (runOps st (rlcOps calls)).2.count_device_dict ("C")
      = some (c + List.countP (fun x => x.1 == "C") calls) := by
  induction calls with
  | nil =>
      intro st r l c hR hL hC _
      simp only [rlcOps, runOps, List.length_nil, List.countP_nil, Nat.add_zero]
      exact ⟨trivial, trivial, hR, hL, hC⟩
  | cons x rest ih =>
      intro st r l c hR hL hC hvalid
      obtain ⟨d, ns, v⟩ := x
      have hd := hvalid (d, ns, v) (List.mem_cons_self _ _)
      have hrest : ∀ y ∈ rest, y.1 = "R" ∨ y.1 = "L" ∨ y.1 = "C" :=
        fun y hy => hvalid y (List.mem_cons_of_mem _ hy)
      rcases hd with h | h | h
      · subst h
        have hstep : applyOp st (Op.rlc ("R") ns v) = (none, rlcNext st ("R") ns v r) :=
          rlc_instance_valid_step st ("R") ns v r (Or.inl rfl) hR
        rw [show rlcOps ((("R" : String), ns, v) :: rest)
            = Op.rlc ("R") ns v :: rlcOps rest from rfl,
          runOps_cons_ok st _ _ _ hstep]
        have ihr := ih (rlcNext st ("R") ns v r) (r + 1) l c
          (by simp only [rlcNext]; exact dictFind_dictSet_self _ _ _)
          (by simp only [rlcNext]; rw [dictFind_dictSet_ne _ _ _ _ (by decide)]; exact hL)
          (by simp only [rlcNext]; rw [dictFind_dictSet_ne _ _ _ _ (by decide)]; exact hC)
          hrest
        obtain ⟨h1, h2, h3, h4, h5⟩ := ihr
        refine ⟨h1, ?_, ?_, ?_, ?_⟩
        · rw [h2]; simp only [rlcNext, List.length_cons]; omega
        · rw [h3, List.countP_cons]
          simp only [show ((("R" : String), ns, v).1 == "R") = true from rfl, if_true]
          congr 1; omega
        · rw [h4, List.countP_cons]
          simp only [show ((("R" : String), ns, v).1 == "L") = false from rfl]
          simp
        · rw [h5, List.countP_cons]
          simp only [show ((("R" : String), ns, v).1 == "C") = false from rfl]
          simp
      · subst h
        have hstep : applyOp st (Op.rlc ("L") ns v) = (none, rlcNext st ("L") ns v l) :=
          rlc_instance_valid_step st ("L") ns v l (Or.inr (Or.inl rfl)) hL
        rw [show rlcOps ((("L" : String), ns, v) :: rest)
            = Op.rlc ("L") ns v :: rlcOps rest from rfl,
          runOps_cons_ok st _ _ _ hstep]
        have ihr := ih (rlcNext st ("L") ns v l) r (l + 1) c
          (by simp only [rlcNext]; rw [dictFind_dictSet_ne _ _ _ _ (by decide)]; exact hR)
          (by simp only [rlcNext]; exact dictFind_dictSet_self _ _ _)
          (by simp only [rlcNext]; rw [dictFind_dictSet_ne _ _ _ _ (by decide)]; exact hC)
          hrest
        obtain ⟨h1, h2, h3, h4, h5⟩ := ihr
        refine ⟨h1, ?_, ?_, ?_, ?_⟩
        · rw [h2]; simp only [rlcNext, List.length_cons]; omega
        · rw [h3, List.countP_cons]
          simp only [show ((("L" : String), ns, v).1 == "R") = false from rfl]
          simp
        · rw [h4, List.countP_cons]
          simp only [show ((("L" : String), ns, v).1 == "L") = true from rfl, if_true]
          congr 1; omega
        · rw [h5, List.countP_cons]
          simp only [show ((("L" : String), ns, v).1 == "C") = false from rfl]
          simp
      · subst h
        have hstep : applyOp st (Op.rlc ("C") ns v) = (none, rlcNext st ("C") ns v c) :=
          rlc_instance_valid_step st ("C") ns v c (Or.inr (Or.inr rfl)) hC
        rw [show rlcOps ((("C" : String), ns, v) :: rest)
            = Op.rlc ("C") ns v :: rlcOps rest from rfl,
          runOps_cons_ok st _ _ _ hstep]
        have ihr := ih (rlcNext st ("C") ns v c) r l (c + 1)
          (by simp only [rlcNext]; rw [dictFind_dictSet_ne _ _ _ _ (by decide)]; exact hR)
          (by simp only [rlcNext]; rw [dictFind_dictSet_ne _ _ _ _ (by decide)]; exact hL)
          (by simp only [rlcNext]; exact dictFind_dictSet_self _ _ _)
          hrest
        obtain ⟨h1, h2, h3, h4, h5⟩ := ihr
        refine ⟨h1, ?_, ?_, ?_, ?_⟩
        · rw [h2]; simp only [rlcNext, List.length_cons]; omega
        · rw [h3, List.countP_cons]
          simp only [show ((("C" : String), ns, v).1 == "R") = false from rfl]
          simp
        · rw [h4, List.countP_cons]
          simp only [show ((("C" : String), ns, v).1 == "L") = false from rfl]
          simp
        · rw [h5, List.countP_cons]
          simp only [show ((("C" : String), ns, v).1 == "C") = true from rfl, if_true]
          congr 1; omega

/-- C3: on a fresh `NetList`, any mix of N valid `rlc_instance` calls
(types drawn from R/L/C) succeeds; afterwards `count_device_total` is N
and each of the `R`/`L`/`C` entries of `count_device_dict` equals the
number of calls made with that type. -/
theorem c3_rlc_mix_counts (calls : List (String × List String × ℚ))
    (hvalid : ∀ x ∈ calls, x.1 = "R" ∨ x.1 = "L" ∨ x.1 = "C") :
    (runOps netListInit (rlcOps calls)).1 = none ∧
    (runOps netListInit (rlcOps calls)).2.count_device_total = calls.length ∧
    dictFind (runOps netListInit (rlcOps calls)).2.count_device_dict ("R")
      = some (List.countP (fun x => x.1 == "R") calls) ∧
    dictFind (runOps netListInit (rlcOps calls)).2.count_device_dict ("L")
      = some (List.countP (fun x => x.1 == "L") calls) ∧
    dictFind (runOps netListInit (rlcOps calls)).2.count_device_dict ("C")
      = some (List.countP (fun x => x.1 == "C") calls) := by
  have h := runOps_rlc_counts calls netListInit 0 0 0 (by decide) (by decide)
    (by decide) hvalid
  simpa [netListInit] using h

/-- Witness for C3 at a concrete mix: two resistor calls and one
capacitor call give total 3, `R` count 2, `L` count 0, `C` count 1. -/
theorem c3_witness :
    (runOps netListInit (rlcOps
        [(("R" : String), ["a", "b"], (1 : ℚ)),
         (("C" : String), ["b", "c"], (2 : ℚ)),
         (("R" : String), ["c", "d"], (3 : ℚ))])).1 = none ∧
    (runOps netListInit (rlcOps
        [(("R" : String), ["a", "b"], (1 : ℚ)),
         (("C" : String), ["b", "c"], (2 : ℚ)),
         (("R" : String), ["c", "d"], (3 : ℚ))])).2.count_device_total = 3 ∧
    dictFind (runOps netListInit (rlcOps
        [(("R" : String), ["a", "b"], (1 : ℚ)),
         (("C" : String), ["b", "c"], (2 : ℚ)),
         (("R" : String), ["c", "d"], (3 : ℚ))])).2.count_device_dict ("R") = some 2 ∧
    dictFind (runOps netListInit (rlcOps
        [(("R" : String), ["a", "b"], (1 : ℚ)),
         (("C" : String), ["b", "c"], (2 : ℚ)),
         (("R" : String), ["c", "d"], (3 : ℚ))])).2.count_device_dict ("L") = some 0 ∧
    dictFind (runOps netListInit (rlcOps
        [(("R" : String), ["a", "b"], (1 : ℚ)),
         (("C" : String), ["b", "c"], (2 : ℚ)),
         (("R" : String), ["c", "d"], (3 : ℚ))])).2.count_device_dict ("C") = some 1 := by
  have h := c3_rlc_mix_counts
    [(("R" : String), ["a", "b"], (1 : ℚ)),
     (("C" : String), ["b", "c"], (2 : ℚ)),
     (("R" : String), ["c", "d"], (3 : ℚ))] (by decide)
  exact ⟨h.1, h.2.1, h.2.2.1, h.2.2.2.1, h.2.2.2.2⟩

/-- The scope after a successful `subcircuit_instance` call that found
counter value `cd` for the sub-circuit name. -/
def subNext (st : NetList) (sc : SubCircuit) (ns : List String) (cd : Nat) :
    NetList :=
  { st with
    count_device_total := st.count_device_total + 1,
    count_device_dict := dictSet st.count_device_dict sc.name (cd + 1),
    devices := st.devices ++
      ["X_" ++ sc.suffix ++ "_" ++ zfill zfillWidth (toString (cd + 1)) ++ " "
        ++ joinSpace ns ++ " " ++ sc.name ++ eol] }

/-- A `subcircuit_instance` call for a registered name whose counter is
present succeeds and steps to `subNext`. -/
theorem subcircuit_instance_step (st : NetList) (sc : SubCircuit)
    (ns : List String) (cd : Nat)
    (hmem : sc.name ∈ get_subcircuit_names st)
    (hfind : dictFind st.count_device_dict sc.name = some cd) :
    subcircuit_instance st (.sub sc) ns = (none, subNext st sc ns cd) := by
  simp only [subcircuit_instance, if_pos hmem, subNext]
  rw [show ({ st with count_device_total := st.count_device_total + 1 } :
      NetList).count_device_dict = st.count_device_dict from rfl, hfind]

/-- C4 induction kernel: successive `subcircuit_instance` calls for a
registered name whose counter reads `cd` succeed, appending exactly the
lines indexed `cd+1, cd+2, …` and leaving the counter at `cd + n`. -/
theorem runOps_sub_indices (nss : List (List String)) :
    ∀ (st : NetList) (sc : SubCircuit) (cd : Nat),
    sc.name ∈ get_subcircuit_names st →
    dictFind st.count_device_dict sc.name = some cd →
    (runOps st (subOps sc nss)).1 = none ∧
    (runOps st (subOps sc nss)).2.devices
      = st.devices ++ expectedSubLines sc (cd + 1) nss ∧
    dictFind (runOps st (subOps sc nss)).2.count_device_dict sc.name
      = some (cd + nss.length) := by
  induction nss with
  | nil =>
      intro st sc cd _ hfind
      simp only [subOps, runOps, expectedSubLines, List.append_nil,
        List.length_nil, Nat.add_zero]
      exact ⟨trivial, trivial, hfind⟩
  | cons ns rest ih =>
      intro st sc cd hmem hfind
      have hstep : applyOp st (Op.subInst (.sub sc) ns) = (none, subNext st sc ns cd) :=
        subcircuit_instance_step st sc ns cd hmem hfind
      rw [show subOps sc (ns :: rest) = Op.subInst (.sub sc) ns :: subOps sc rest
          from rfl,
        runOps_cons_ok st _ _ _ hstep]
      have hmem2 : sc.name ∈ get_subcircuit_names (subNext st sc ns cd) := hmem
      have ihr := ih (subNext st sc ns cd) sc (cd + 1) hmem2
        (by simp only [subNext]; exact dictFind_dictSet_self _ _ _)
      obtain ⟨h1, h2, h3⟩ := ihr
      refine ⟨h1, ?_, ?_⟩
      · rw [h2]
        simp only [subNext, expectedSubLines, List.append_assoc,
          List.singleton_append]
      · rw [h3]; simp only [List.length_cons]; congr 1; omega

/-- C4: for a sub-circuit name just registered in a scope (counter 0),
`n` successive `subcircuit_instance` calls succeed and append exactly
the lines `X_<suffix>_<index zero-padded to 5> <nodes> <name>` with
indices 1, 2, …, n, leaving the per-name counter at `n`. -/
theorem c4_subcircuit_indices (st : NetList) (sc : SubCircuit)
    (nss : List (List String))
    (hmem : sc.name ∈ get_subcircuit_names st)
    (hfind : dictFind st.count_device_dict sc.name = some 0) :
    (runOps st (subOps sc nss)).1 = none ∧
    (runOps st (subOps sc nss)).2.devices
      = st.devices ++ expectedSubLines sc 1 nss ∧
    dictFind (runOps st (subOps sc nss)).2.count_device_dict sc.name
      = some nss.length := by
  have h := runOps_sub_indices nss st sc 0 hmem hfind
  simpa using h

/-- Witness for C4 at the example of the spec: after registering `OPAMP`
(suffix `AMP`), two instance calls render `X_AMP_00001 n1 n2 OPAMP` and
`X_AMP_00002 n3 n4 OPAMP`. -/
theorem c4_witness :
    (runOps (add_subcircuit netListInit (.sub opamp)).2
        (subOps opamp [["n1", "n2"], ["n3", "n4"]])).2.devices
      = ["X_AMP_00001 n1 n2 OPAMP\n", "X_AMP_00002 n3 n4 OPAMP\n"] := by
  have h := c4_subcircuit_indices (add_subcircuit netListInit (.sub opamp)).2
    opamp [["n1", "n2"], ["n3", "n4"]] (by decide) (by decide)
  exact h.2.1.trans (by decide)

/-- A parser target in whose scope `OPAMP` is already registered. -/
def loaderWithOpamp : SubCircuit :=
  blankSub.withScope ((add_subcircuit blankSub.scope (.sub opamp)).2)

/-- C6 (code bug): on an `X` line the source calls
`subcircuit_instance(split_line[-1], split_line[1:-1])`, passing the
referenced name as a `str` where a `SubCircuit` is documented; the
attribute access `subcircuit.name` then raises `AttributeError` — both
when the referenced sub-circuit is registered and when it is not — so
the documented `ValueError` (`UnregisteredSubcircuit`) path and the
successful-instance path are both unreachable from the parser. -/
theorem c6_xline_attribute_error :
    (load_from_file loaderWithOpamp ("sub.cir")
        [".SUBCIRCUIT TOP a b", "X_AMP_00001 n1 n2 OPAMP", ".ENDS TOP"]
        [] ("TOP") ("S")).1
      = some (.attributeError ("str object has no attribute name")) ∧
    (load_from_file blankSub ("sub.cir")
        [".SUBCIRCUIT TOP a b", "X_AMP_00001 n1 n2 OPAMP", ".ENDS TOP"]
        [] ("TOP") ("S")).1
      = some (.attributeError ("str object has no attribute name")) := by
  exact ⟨by decide, by decide⟩

/-- C7 counterexample: a file with a blank line between two device
lines makes `load_from_file` raise `IndexError` — the tokenizer does
crash, contrary to the claim. -/
theorem c7_counterexample :
    (load_from_file blankSub ("sub.cir")
        [".SUBCIRCUIT TOP a b", "R1 a b 1.0", "", "R2 b c 2.0", ".ENDS TOP"]
        [] ("TOP") ("S")).1
      = some (.indexError ("list index out of range")) := by
  decide

/-- C7 amended: a body line with no tokens (a blank or whitespace-only
line) makes the classification loop raise `IndexError` at
`split_line[0]`, aborting the load with the sub-circuit left as it
was. -/
theorem c7_blank_line_index_error (sc : SubCircuit) (rest : List String)
    (l : String) (h : pySplit l = []) :
    loadLoop sc (l :: rest)
      = (some (.indexError ("list index out of range")), sc) := by
  simp only [loadLoop, h]

/-- Witness for C7 amended at the empty line. -/
theorem c7_witness :
    pySplit ("") = [] ∧
    loadLoop blankSub [""]
      = (some (.indexError ("list index out of range")), blankSub) :=
  ⟨by decide, c7_blank_line_index_error blankSub [] ("") (by decide)⟩

/-- C8 counterexample: an empty input file with a supplied name reaches
end-of-input without any `.ENDS`, yet `load_from_file` raises nothing
and returns silently — there is no `TruncatedInput` failure. -/
theorem c8_counterexample :
    (load_from_file blankSub ("sub.cir") [] [] ("TOP") ("S")).1 = none := by
  decide

/-- C8 amended: the source never raises a dedicated truncation error.
An empty file with a supplied name returns silently; and whenever the
classification loop runs past the last line without having met `.ENDS`,
the empty end-of-file read is tokenized to no tokens and `IndexError`
is raised instead. -/
theorem c8_no_truncation_error (sc : SubCircuit) (path : String)
    (ext : List String) (nm sfx : String) (hnm : nm ≠ "") :
    (load_from_file sc path [] ext nm sfx).1 = none ∧
    loadLoop sc [] = (some (.indexError ("list index out of range")), sc) := by
  constructor
  · simp only [load_from_file, if_neg hnm]
    rfl
  · rfl

/-- Witness for C8 amended at a concrete loader. -/
theorem c8_witness :
    (load_from_file blankSub ("f.cir") [] ["a"] ("TOP") ("S")).1 = none ∧
    loadLoop blankSub []
      = (some (.indexError ("list index out of range")), blankSub) :=
  c8_no_truncation_error blankSub ("f.cir") ["a"] ("TOP") ("S") (by decide)

/-- Writing a comment only appends to the destination. -/
theorem write_comment_append (acc : List String) (c : String) :
    write_comment acc c = acc ++ write_comment [] c := by
  unfold write_comment
  split <;> simp

/-- The inner-sub-circuit comment prelude only appends to the
destination. -/
theorem innerPrelude_append (acc : List String) (src : Option String) :
    innerPrelude acc src = acc ++ innerPrelude [] src := by
  cases src with
  | none =>
      simp only [innerPrelude]
      rw [write_comment_append (write_comment acc (" ")),
        write_comment_append acc,
        write_comment_append (write_comment [] (" "))]
      simp [List.append_assoc]
  | some p =>
      simp only [innerPrelude]
      rw [write_comment_append (write_comment (write_comment acc (" "))
          ("Inner subcircuit")),
        write_comment_append (write_comment acc (" ")),
        write_comment_append acc,
        write_comment_append (write_comment (write_comment [] (" "))
          ("Inner subcircuit")),
        write_comment_append (write_comment [] (" "))]
      simp [List.append_assoc]

/-- Writer homomorphism, by strong induction on size: both
`write_subcircuit` and `writeInnerSubs` only append to the
destination. -/
theorem writer_hom (n : Nat) :
    (∀ sc : SubCircuit, sizeOf sc ≤ n →
      ∀ acc, write_subcircuit acc sc = acc ++ write_subcircuit [] sc) ∧
    (∀ l : List SubCircuit, sizeOf l ≤ n →
      ∀ acc, writeInnerSubs acc l = acc ++ writeInnerSubs [] l) := by
  induction n using Nat.strong_induction_on with
  | _ n ih =>
    constructor
    · intro sc hsc acc
      obtain ⟨nm, ext, sfx, cm, src, subs, devs, dict, tot⟩ := sc
      have hsubs : sizeOf subs < n := by
        have := SubCircuit.mk.sizeOf_spec nm ext sfx cm src subs devs dict tot
        omega
      have ihl := (ih (sizeOf subs) hsubs).2 subs (Nat.le_refl _)
      simp only [write_subcircuit]
      rw [ihl, ihl (write_comment [] cm ++ [start_line nm ext] ++ [String.join devs]),
        write_comment_append]
      simp [List.append_assoc]
    · intro l hl acc
      match l, hl with
      | [], _ => simp [writeInnerSubs]
      | s :: rest, hl =>
        have hs : sizeOf s < n := by
          have := List.cons.sizeOf_spec s rest
          omega
        have hrest : sizeOf rest < n := by
          have := List.cons.sizeOf_spec s rest
          omega
        have ihs := (ih (sizeOf s) hs).1 s (Nat.le_refl _)
        have ihr := (ih (sizeOf rest) hrest).2 rest (Nat.le_refl _)
        simp only [writeInnerSubs]
        rw [ihr (write_subcircuit (innerPrelude acc s.subcircuit_filepath) s),
          ihs (innerPrelude acc s.subcircuit_filepath),
          innerPrelude_append acc s.subcircuit_filepath,
          ihr (write_subcircuit (innerPrelude [] s.subcircuit_filepath) s),
          ihs (innerPrelude [] s.subcircuit_filepath)]
        simp [List.append_assoc]

/-- Writing one sub-circuit only appends to the destination. -/
theorem write_subcircuit_append (acc : List String) (sc : SubCircuit) :
    write_subcircuit acc sc = acc ++ write_subcircuit [] sc :=
  (writer_hom (sizeOf sc)).1 sc (Nat.le_refl _) acc

/-- The top-level sub-circuit loop only appends to the destination. -/
theorem writeTopSubs_append (l : List SubCircuit) :
    ∀ acc, writeTopSubs acc l = acc ++ writeTopSubs [] l := by
  induction l with
  | nil => intro acc; simp [writeTopSubs]
  | cons s rest ih =>
      intro acc
      simp only [writeTopSubs]
      rw [write_subcircuit_append acc s, ih (acc ++ write_subcircuit [] s),
        ih (write_subcircuit [] s)]
      simp [List.append_assoc]

/-- The sub-circuits pass only appends to the destination. -/
theorem write_subcircuits_append (st : NetList) (prev : List String) :
    write_subcircuits st prev = prev ++ write_subcircuits st [] := by
  unfold write_subcircuits
  rw [writeTopSubs_append _ (write_comment prev ("subcircuits")),
    writeTopSubs_append _ (write_comment [] ("subcircuits")),
    write_comment_append]
  simp [List.append_assoc]

/-- The instances pass only appends to the destination. -/
theorem write_instances_append (st : NetList) (prev : List String) :
    write_instances st prev = prev ++ write_instances st [] := by
  unfold write_instances
  rw [write_comment_append]
  simp [List.append_assoc]

/-- C9: `write_in_fpath` always emits the header, then the sub-circuit
definitions, then the top-level instance lines, in that fixed order, as
three passes over the destination: whatever content `prev` the
destination held, the header pass replaces it (create/truncate) and the
sub-circuits and instances passes each only append. -/
theorem c9_write_order (st : NetList) (date time : String) (prev : List String) :
    write_in_fpath st date time prev
      = write_header date time [] ++ write_subcircuits st [] ++ write_instances st [] := by
  unfold write_in_fpath
  rw [write_instances_append, write_subcircuits_append,
    show write_header date time prev = write_header date time [] from rfl]

/-- A sub-circuit named `R`, clashing with the resistor counter key. -/
def rNamedSub : SubCircuit := subCircuitInit ("R") [] ("RS") ("")

/-- C10 counterexample: create one resistor (total 1, `R` counter 1),
then register a sub-circuit named `R`.  Both operations succeed, the
registered names (`["R"]`) are pairwise distinct, yet the registration
resets the `R` entry to 0, so the total (1) differs from the sum of the
counter dictionary values (0). -/
theorem c10_counterexample :
    (runOps netListInit
        [.rlc ("R") ["a", "b"] 1, .addSub (.sub rNamedSub)]).1 = none ∧
    get_subcircuit_names (runOps netListInit
        [.rlc ("R") ["a", "b"] 1, .addSub (.sub rNamedSub)]).2 = ["R"] ∧
    (runOps netListInit
        [.rlc ("R") ["a", "b"] 1, .addSub (.sub rNamedSub)]).2.count_device_total = 1 ∧
    dictSum (runOps netListInit
        [.rlc ("R") ["a", "b"] 1, .addSub (.sub rNamedSub)]).2.count_device_dict = 0 := by
  refine ⟨by decide, ?_, by decide, by decide⟩
  rfl

/-- C10 induction kernel: if the total equals the dictionary sum and
every name later registered is absent from the dictionary (each exactly
once), any successful run of construction calls preserves the
equality. -/
theorem runOps_total_eq_sum (ops : List Op) :
    ∀ (st st' : NetList),
    st.count_device_total = dictSum st.count_device_dict →
    (addSubNames ops).Nodup →
    (∀ n ∈ addSubNames ops, dictFind st.count_device_dict n = none) →
    runOps st ops = (none, st') →
    st'.count_device_total = dictSum st'.count_device_dict := by
  induction ops with
  | nil =>
      intro st st' hinv _ _ hrun
      simp only [runOps, Prod.mk.injEq] at hrun
      rw [← hrun.2]
      exact hinv
  | cons op rest ih =>
      intro st st' hinv hnodup hfresh hrun
      match op with
      | .addSub (.str s) =>
          simp [runOps, applyOp, add_subcircuit] at hrun
      | .addSub (.sub sc) =>
          have hname : dictFind st.count_device_dict sc.name = none :=
            hfresh sc.name (by simp [addSubNames])
          have happly : applyOp st (.addSub (.sub sc)) =
              (none, (⟨st.subcircuits ++ [sc], st.devices,
                dictSet st.count_device_dict sc.name 0,
                st.count_device_total⟩ : NetList)) := rfl
          rw [runOps_cons_ok st _ _ rest happly] at hrun
          have hnodup2 : (addSubNames rest).Nodup := by
            simpa [addSubNames] using hnodup.of_cons
          have hnotmem : sc.name ∉ addSubNames rest := by
            have := hnodup
            simp only [addSubNames] at this
            exact (List.nodup_cons.mp this).1
          apply ih _ st' ?_ hnodup2 ?_ hrun
          · show st.count_device_total
              = dictSum (dictSet st.count_device_dict sc.name 0)
            rw [dictSet_fresh _ _ _ hname, dictSum_append]
            omega
          · intro n hn
            show dictFind (dictSet st.count_device_dict sc.name 0) n = none
            rw [(dictFind_dictSet_none _ _ _ _).2]
            exact ⟨hfresh n (by simp [addSubNames, hn]),
              fun e => hnotmem (e ▸ hn)⟩
      | .rlc d ns v =>
          by_cases hd : d = "R" ∨ d = "L" ∨ d = "C"
          · cases hfind : dictFind st.count_device_dict d with
            | none =>
                simp [runOps, applyOp, rlc_instance, if_pos hd, hfind] at hrun
            | some c =>
                have happly : applyOp st (.rlc d ns v) = (none, rlcNext st d ns v c) :=
                  rlc_instance_valid_step st d ns v c hd hfind
                rw [runOps_cons_ok st _ _ rest happly] at hrun
                have hnodup2 : (addSubNames rest).Nodup := by
                  simpa [addSubNames] using hnodup
                apply ih _ st' ?_ hnodup2 ?_ hrun
                · show st.count_device_total + 1
                    = dictSum (dictSet st.count_device_dict d (c + 1))
                  rw [dictSum_dictSet_succ _ _ _ hfind]
                  omega
                · intro n hn
                  have hn0 : dictFind st.count_device_dict n = none :=
                    hfresh n (by simpa [addSubNames] using hn)
                  show dictFind (dictSet st.count_device_dict d (c + 1)) n = none
                  rw [(dictFind_dictSet_none _ _ _ _).2]
                  refine ⟨hn0, fun e => ?_⟩
                  rw [e, hfind] at hn0
                  exact Option.noConfusion hn0
          · simp [runOps, applyOp, rlc_instance, if_neg hd] at hrun
      | .subInst (.str s) ns =>
          simp [runOps, applyOp, subcircuit_instance] at hrun
      | .subInst (.sub sc) ns =>
          by_cases hmem : sc.name ∈ get_subcircuit_names st
          · cases hfind : dictFind st.count_device_dict sc.name with
            | none =>
                simp [runOps, applyOp, subcircuit_instance, if_pos hmem, hfind] at hrun
            | some c =>
                have happly : applyOp st (.subInst (.sub sc) ns)
                    = (none, subNext st sc ns c) :=
                  subcircuit_instance_step st sc ns c hmem hfind
                rw [runOps_cons_ok st _ _ rest happly] at hrun
                have hnodup2 : (addSubNames rest).Nodup := by
                  simpa [addSubNames] using hnodup
                apply ih _ st' ?_ hnodup2 ?_ hrun
                · show st.count_device_total + 1
                    = dictSum (dictSet st.count_device_dict sc.name (c + 1))
                  rw [dictSum_dictSet_succ _ _ _ hfind]
                  omega
                · intro n hn
                  have hn0 : dictFind st.count_device_dict n = none :=
                    hfresh n (by simpa [addSubNames] using hn)
                  show dictFind (dictSet st.count_device_dict sc.name (c + 1)) n = none
                  rw [(dictFind_dictSet_none _ _ _ _).2]
                  refine ⟨hn0, fun e => ?_⟩
                  rw [e, hfind] at hn0
                  exact Option.noConfusion hn0
          · simp [runOps, applyOp, subcircuit_instance, if_neg hmem] at hrun

/-- C10 amended: after any successful sequence of construction calls on
a fresh `NetList` in which the registered sub-circuit names are
pairwise distinct **and none of them is `R`, `C` or `L`**,
`count_device_total` equals the sum of the values of
`count_device_dict` (registering a sub-circuit named after an `R`/`C`/
`L` key — or after an already registered name — resets a live counter
and breaks the equality, as the counterexample shows). -/
theorem c10_total_eq_dict_sum (ops : List Op) (st' : NetList)
    (hnodup : (addSubNames ops).Nodup)
    (havoid : ∀ n ∈ addSubNames ops, n ≠ "R" ∧ n ≠ "C" ∧ n ≠ "L")
    (hrun : runOps netListInit ops = (none, st')) :
    st'.count_device_total = dictSum st'.count_device_dict := by
  apply runOps_total_eq_sum ops netListInit st' (by decide) hnodup ?_ hrun
  intro n hn
  obtain ⟨h1, h2, h3⟩ := havoid n hn
  simp [netListInit, dictFind, Ne.symm h1, Ne.symm h2, Ne.symm h3]

/-- Witness for C10 amended: register `OPAMP`, instance it, add a
resistor; the total (2) equals the dictionary sum (1 + 1 + 0 + 0). -/
theorem c10_witness :
    (runOps netListInit
        [.addSub (.sub opamp), .subInst (.sub opamp) ["n1", "n2"],
         .rlc ("R") ["a", "b"] 5]).2.count_device_total
      = dictSum (runOps netListInit
        [.addSub (.sub opamp), .subInst (.sub opamp) ["n1", "n2"],
         .rlc ("R") ["a", "b"] 5]).2.count_device_dict :=
  c10_total_eq_dict_sum
    [.addSub (.sub opamp), .subInst (.sub opamp) ["n1", "n2"],
     .rlc ("R") ["a", "b"] 5]
    (runOps netListInit
        [.addSub (.sub opamp), .subInst (.sub opamp) ["n1", "n2"],
         .rlc ("R") ["a", "b"] 5]).2
    (by decide) (by decide) (by rfl)
